import Mathlib

/-!
Shallow embedding of the restock-strategy allocator
(app/services/restock_service.py and app/schemas/restock_schema.py).

Python floats are modelled as rational numbers; Python int(x) truncation
toward zero is modelled by pyInt.  Python's list.sort is a stable sort, so
it is modelled by the (stable) insertion sort from Mathlib with the same
comparator; a stable sort is a function of the comparator and the input
list, so the two agree extensionally.  Log statements, reasoning strings
and the free-text rationale on each item are presentation-only and are not
modelled; warnings are modelled as an inductive datatype carrying the
numeric payload of each message.
-/

/-- Truncation toward zero, Python int(x) applied to a float. -/
def pyInt (q : ℚ) : ℤ := if 0 ≤ q then ⌊q⌋ else ⌈q⌉

/-- Python max over a nonempty list, with a default for the empty list. -/
def pyMaxD (l : List ℚ) (d : ℚ) : ℚ :=
  match l with
  | [] => d
  | x :: xs => xs.foldl max x

/-- RestockGoal from restock_schema.py. -/
inductive RestockGoal where
  | profit
  | volume
  | balanced
deriving DecidableEq, Repr

/-- ProductInput from restock_schema.py.  product_id (str or int in the
source) is modelled as a natural number; the optional category field is
unused by the algorithms and omitted. -/
structure ProductInput where
  product_id : ℕ
  name : String
  price : ℚ
  cost : ℚ
  stock : ℤ
  avg_daily_sales : ℚ
  profit_margin : ℚ
  min_order_qty : ℤ
  max_order_qty : Option ℤ
deriving DecidableEq, Repr

/-- RestockItem from restock_schema.py (the free-text reasoning field is
presentation-only and omitted). -/
structure RestockItem where
  product_id : ℕ
  name : String
  qty : ℤ
  unit_cost : ℚ
  total_cost : ℚ
  expected_profit : ℚ
  expected_revenue : ℚ
  days_of_stock : ℚ
  priority_score : ℚ
deriving DecidableEq, Repr

/-- RestockTotals from restock_schema.py. -/
structure RestockTotals where
  total_items : ℕ
  total_qty : ℤ
  total_cost : ℚ
  budget_used_pct : ℚ
  expected_revenue : ℚ
  expected_profit : ℚ
  expected_roi : ℚ
  avg_days_of_stock : ℚ
deriving DecidableEq, Repr

/-- Warning messages produced by compute_restock_strategy and
generate_warnings, as a datatype carrying each message's numeric payload
(the f-string text itself is presentation-only). -/
inductive Warning where
  | noValidProducts
  | lowUtilization (pct : ℚ)
  | highDaysOfStock (avg : ℚ)
  | lowDaysOfStock (avg : ℚ)
  | lowStockItem (name : String) (days : ℚ)
  | lowStockMore (count : ℤ)
  | lowStockSummary (critical warning info : ℕ)
  | excludedCount (n : ℕ)
deriving DecidableEq, Repr

/-- RestockRequest from restock_schema.py. -/
structure RestockRequest where
  shop_id : String
  budget : ℚ
  goal : RestockGoal
  products : List ProductInput
  restock_days : ℤ
  is_payday : Bool
  upcoming_holiday : Option String
deriving DecidableEq, Repr

/-- RestockResponse from restock_schema.py (reasoning strings and the meta
block are presentation-only and omitted). -/
structure RestockResponse where
  strategy : RestockGoal
  shop_id : String
  budget : ℚ
  items : List RestockItem
  totals : RestockTotals
  warnings : List Warning
deriving DecidableEq, Repr

/-- Python str.lower, character by character (the recognized labels are
ASCII, where Char.toLower agrees with Python). -/
def pyLower (s : String) : String := String.mk (s.data.map Char.toLower)

/-- The fixed recognized holiday labels of apply_context_multipliers. -/
def recognizedHolidays : List String :=
  ["11.11", "christmas", "black friday", "new year", "valentine"]

/-- apply_context_multipliers from restock_service.py.  The product
argument of the source is used only for logging and is omitted.  A Python
empty-string label is falsy there, and also matches no recognized label
here, so the two give the same result. -/
def applyContextMultipliers (base_demand : ℚ) (is_payday : Bool)
    (upcoming_holiday : Option String) : ℚ :=
  let d1 := if is_payday then base_demand * (12/10) else base_demand
  match upcoming_holiday with
  | none => d1
  | some h => if recognizedHolidays.contains (pyLower h) then d1 * (3/2) else d1

/-- Adjusted daily demand of a product under the request context. -/
def adjustedDemand (is_payday : Bool) (upcoming_holiday : Option String)
    (p : ProductInput) : ℚ :=
  applyContextMultipliers p.avg_daily_sales is_payday upcoming_holiday

/-- current_days_of_stock: stock divided by adjusted demand, 999 sentinel
when the adjusted demand is not positive. -/
def currentDaysOfStock (stock : ℤ) (daily_demand : ℚ) : ℚ :=
  if 0 < daily_demand then (stock : ℚ) / daily_demand else 999

/-- The urgency-multiplier cascade shared by all three strategies. -/
def urgencyOf (days : ℚ) (restock_days : ℤ) : ℚ :=
  if days < 1/2 then 10
  else if days < 1 then 8
  else if days < 2 then 5
  else if days < 3 then 3
  else if days < 7 then 2
  else if days < (restock_days : ℚ) then 3/2
  else 1

/-- The urgency and stockout-penalty cascade of balanced_strategy,
returning the pair (urgency, stockout_penalty). -/
def urgencyPenaltyOf (days : ℚ) (restock_days : ℤ) : ℚ × ℚ :=
  if days < 1/2 then (10, 1)
  else if days < 1 then (8, 9/10)
  else if days < 2 then (5, 7/10)
  else if days < 3 then (3, 5/10)
  else if days < 7 then (2, 2/10)
  else if days < (restock_days : ℚ) then (3/2, 1/10)
  else (1, 0)

/-- Full-cycle needed quantity: needed demand for restock_days minus
stock, raised to min_order_qty when positive and capped at max_order_qty
when set. -/
def fullCycleQty (p : ProductInput) (daily_demand : ℚ) (restock_days : ℤ) : ℤ :=
  let n := max 0 (pyInt (daily_demand * (restock_days : ℚ) - (p.stock : ℚ)))
  if 0 < n then
    let n1 := max n p.min_order_qty
    match p.max_order_qty with
    | some m => min n1 m
    | none => n1
  else n

/-- Emergency horizon in days for a critical product, by velocity tier. -/
def emergencyDaysOf (daily_demand : ℚ) : ℤ :=
  if 40 < daily_demand then 2 else if 20 < daily_demand then 3 else 5

/-- Emergency quantity for a critical product: demand for the emergency
horizon minus stock, with the min_order_qty fallback and the
max_order_qty cap. -/
def emergencyQtyOf (p : ProductInput) (daily_demand : ℚ) : ℤ :=
  let e := max 0 (pyInt (daily_demand * (emergencyDaysOf daily_demand : ℚ) - (p.stock : ℚ)))
  let e1 := if 0 < e then max e p.min_order_qty else p.min_order_qty
  match p.max_order_qty with
  | some m => min e1 m
  | none => e1

/-- A scored candidate: the per-product dict accumulated by the scoring
loops of the three strategies.  score holds the strategy score (the
hybrid score for balanced); profitPerUnit is the per-unit profit the
allocation loop multiplies by qty for expected_profit (clamped at the
scoring stage for profit and balanced, raw price minus cost for volume);
the emergency fields are set only for critical candidates. -/
structure Scored where
  product : ProductInput
  score : ℚ
  qty : ℤ
  profitPerUnit : ℚ
  urgency : ℚ
  currentDays : ℚ
  emergencyQty : Option ℤ
  emergencyCost : ℚ
  efficiency : ℚ
deriving DecidableEq, Repr

/-- The attempted quantity and total cost for a non-critical candidate
inside the greedy loop: full quantity if affordable, otherwise the
affordable quantity when it meets min_order_qty, otherwise skip. -/
def nonCriticalAttempt (remaining : ℚ) (c : Scored) : Option (ℤ × ℚ) :=
  let tc := c.product.cost * (c.qty : ℚ)
  if remaining < tc then
    let afford := pyInt (remaining / c.product.cost)
    if afford < c.product.min_order_qty then none
    else some (afford, c.product.cost * (afford : ℚ))
  else some (c.qty, tc)

/-- The attempted quantity and total cost for one candidate of the greedy
loop.  Critical candidates (emergency quantity present and positive)
always attempt the emergency quantity, capped by affordability but never
above the emergency quantity; everything else takes the non-critical
path. -/
def attemptQty (remaining : ℚ) (c : Scored) : Option (ℤ × ℚ) :=
  match c.emergencyQty with
  | some e =>
    if 0 < e then
      if remaining < c.emergencyCost then
        let afford := pyInt (remaining / c.product.cost)
        if afford < c.product.min_order_qty then none
        else some (min afford e, c.product.cost * ((min afford e : ℤ) : ℚ))
      else some (e, c.emergencyCost)
    else nonCriticalAttempt remaining c
  | none => nonCriticalAttempt remaining c

/-- One committed item of the greedy loop: the attempted quantity passes
the final gate (positive quantity, cost within remaining budget) and an
item is emitted. -/
def commit (remaining : ℚ) (c : Scored) : Option RestockItem :=
  match attemptQty remaining c with
  | none => none
  | some (qty, tc) =>
    if 0 < qty ∧ tc ≤ remaining then
      some
        { product_id := c.product.product_id
          name := c.product.name
          qty := qty
          unit_cost := c.product.cost
          total_cost := tc
          expected_profit := max 0 ((qty : ℚ) * c.profitPerUnit)
          expected_revenue := (qty : ℚ) * c.product.price
          days_of_stock :=
            if 0 < c.product.avg_daily_sales then (qty : ℚ) / c.product.avg_daily_sales
            else 999
          priority_score := c.score }
    else none

/-- The greedy allocation loop shared by the three strategies: walk the
sorted candidates, commit affordable ones, deduct their cost, and stop
once the remaining budget drops below one currency unit. -/
def allocLoop (remaining : ℚ) : List Scored → List RestockItem
  | [] => []
  | c :: rest =>
    match commit remaining c with
    | none => allocLoop remaining rest
    | some it =>
      if remaining - it.total_cost < 1 then [it]
      else it :: allocLoop (remaining - it.total_cost) rest

/-- Enrichment of a critical candidate with its emergency quantity, its
cost and the efficiency ratio. -/
def enrich (is_payday : Bool) (upcoming_holiday : Option String) (c : Scored) : Scored :=
  let adj := adjustedDemand is_payday upcoming_holiday c.product
  let e := emergencyQtyOf c.product adj
  let ec := c.product.cost * (e : ℚ)
  { c with
    emergencyQty := some e
    emergencyCost := ec
    efficiency := if 0 < ec then c.score / ec else 0 }

/-- Stable descending sort by a rational key (Python list.sort with
reverse=True is stable, as is insertion sort, so they agree). -/
def sortByDesc (key : Scored → ℚ) (l : List Scored) : List Scored :=
  l.insertionSort (fun a b => key b ≤ key a)

/-- The critical part of a candidate list: candidates with less than one
day of stock under adjusted demand. -/
def criticalPart (cands : List Scored) : List Scored :=
  cands.filter (fun c => decide (c.currentDays < 1))

/-- The non-critical part of a candidate list. -/
def nonCriticalPart (cands : List Scored) : List Scored :=
  cands.filter (fun c => !(decide (c.currentDays < 1)))

/-- Two-phase candidate ordering shared by the three strategies: critical
candidates (enriched with emergency data) sorted descending by
efficiency, then non-critical candidates sorted descending by raw
score. -/
def mkSorted (is_payday : Bool) (upcoming_holiday : Option String)
    (cands : List Scored) : List Scored :=
  sortByDesc (fun c => c.efficiency) ((criticalPart cands).map (enrich is_payday upcoming_holiday))
    ++ sortByDesc (fun c => c.score) (nonCriticalPart cands)

/-- The scoring step shared by the candidate builders: package a product
whose needed quantity is positive, with the strategy-specific score and
per-unit profit. -/
def baseCandidate (restock_days : ℤ) (is_payday : Bool) (upcoming_holiday : Option String)
    (score profitPerUnit urgency : ℚ) (p : ProductInput) : Option Scored :=
  let adj := adjustedDemand is_payday upcoming_holiday p
  let days := currentDaysOfStock p.stock adj
  let q := fullCycleQty p adj restock_days
  if 0 < q then
    some
      { product := p, score := score, qty := q, profitPerUnit := profitPerUnit
        urgency := urgency, currentDays := days
        emergencyQty := none, emergencyCost := 0, efficiency := 0 }
  else none

/-- The scoring loop of profit_maximization for one product. -/
def profitCandidate (restock_days : ℤ) (is_payday : Bool)
    (upcoming_holiday : Option String) (p : ProductInput) : Option Scored :=
  let adj := adjustedDemand is_payday upcoming_holiday p
  let days := currentDaysOfStock p.stock adj
  let urg := urgencyOf days restock_days
  let unit_profit := max 0 (p.price - p.cost)
  baseCandidate restock_days is_payday upcoming_holiday
    (unit_profit * adj * urg) unit_profit urg p

/-- profit_maximization from restock_service.py (items only; the
reasoning strings are presentation-only). -/
def profitMaximization (products : List ProductInput) (budget : ℚ) (restock_days : ℤ)
    (is_payday : Bool) (upcoming_holiday : Option String) : List RestockItem :=
  allocLoop budget
    (mkSorted is_payday upcoming_holiday
      (products.filterMap (profitCandidate restock_days is_payday upcoming_holiday)))

/-- The scoring loop of volume_maximization for one product.  Note the
per-unit profit used by its allocation loop is the raw price minus cost
(clamped only at emission time). -/
def volumeCandidate (restock_days : ℤ) (is_payday : Bool)
    (upcoming_holiday : Option String) (p : ProductInput) : Option Scored :=
  let adj := adjustedDemand is_payday upcoming_holiday p
  let days := currentDaysOfStock p.stock adj
  let urg := urgencyOf days restock_days
  let vscore := (if 0 < p.cost then adj / p.cost else 0) * urg
  baseCandidate restock_days is_payday upcoming_holiday
    vscore (p.price - p.cost) urg p

/-- volume_maximization from restock_service.py (items only). -/
def volumeMaximization (products : List ProductInput) (budget : ℚ) (restock_days : ℤ)
    (is_payday : Bool) (upcoming_holiday : Option String) : List RestockItem :=
  allocLoop budget
    (mkSorted is_payday upcoming_holiday
      (products.filterMap (volumeCandidate restock_days is_payday upcoming_holiday)))

/-- The raw (pre-normalization) profit score of balanced_strategy. -/
def balProfitScore (restock_days : ℤ) (is_payday : Bool)
    (upcoming_holiday : Option String) (p : ProductInput) : ℚ :=
  let adj := adjustedDemand is_payday upcoming_holiday p
  let days := currentDaysOfStock p.stock adj
  max 0 (p.price - p.cost) * adj * (urgencyPenaltyOf days restock_days).1

/-- The raw (pre-normalization) volume score of balanced_strategy. -/
def balVolumeScore (restock_days : ℤ) (is_payday : Bool)
    (upcoming_holiday : Option String) (p : ProductInput) : ℚ :=
  let adj := adjustedDemand is_payday upcoming_holiday p
  let days := currentDaysOfStock p.stock adj
  (if 0 < p.cost then adj / p.cost else 0) * (urgencyPenaltyOf days restock_days).1

/-- The scoring loop of balanced_strategy for one product, given the
normalization maxima taken over the whole (filtered) product list. -/
def balancedCandidate (maxProfit maxVolume : ℚ) (restock_days : ℤ) (is_payday : Bool)
    (upcoming_holiday : Option String) (p : ProductInput) : Option Scored :=
  let adj := adjustedDemand is_payday upcoming_holiday p
  let days := currentDaysOfStock p.stock adj
  let pen := (urgencyPenaltyOf days restock_days).2
  let pscore := balProfitScore restock_days is_payday upcoming_holiday p
  let vscore := balVolumeScore restock_days is_payday upcoming_holiday p
  let norm_profit := if 0 < maxProfit then pscore / maxProfit else 0
  let norm_volume := if 0 < maxVolume then vscore / maxVolume else 0
  let hybrid := (norm_profit * (5/10) + norm_volume * (5/10)) + pen * (5/10)
  baseCandidate restock_days is_payday upcoming_holiday
    hybrid (max 0 (p.price - p.cost)) (urgencyPenaltyOf days restock_days).1 p

/-- The candidate list of balanced_strategy, normalization maxima
included (max over the raw score lists of the whole filtered product
list, defaulting to 1 when the list is empty). -/
def balancedCandidates (products : List ProductInput) (restock_days : ℤ)
    (is_payday : Bool) (upcoming_holiday : Option String) : List Scored :=
  let maxProfit := pyMaxD (products.map (balProfitScore restock_days is_payday upcoming_holiday)) 1
  let maxVolume := pyMaxD (products.map (balVolumeScore restock_days is_payday upcoming_holiday)) 1
  products.filterMap
    (balancedCandidate maxProfit maxVolume restock_days is_payday upcoming_holiday)

/-- balanced_strategy from restock_service.py (items only). -/
def balancedStrategy (products : List ProductInput) (budget : ℚ) (restock_days : ℤ)
    (is_payday : Bool) (upcoming_holiday : Option String) : List RestockItem :=
  allocLoop budget
    (mkSorted is_payday upcoming_holiday
      (balancedCandidates products restock_days is_payday upcoming_holiday))

/-- compute_totals from restock_service.py. -/
def computeTotals (items : List RestockItem) (budget : ℚ) : RestockTotals :=
  let total_items := items.length
  let total_cost := (items.map (fun it => it.total_cost)).sum
  let expected_profit := max 0 ((items.map (fun it => it.expected_profit)).sum)
  { total_items := total_items
    total_qty := (items.map (fun it => it.qty)).sum
    total_cost := total_cost
    budget_used_pct := if 0 < budget then total_cost / budget * 100 else 0
    expected_revenue := (items.map (fun it => it.expected_revenue)).sum
    expected_profit := expected_profit
    expected_roi := if 0 < total_cost then expected_profit / total_cost * 100 else 0
    avg_days_of_stock :=
      if 0 < total_items then (items.map (fun it => it.days_of_stock)).sum / (total_items : ℚ)
      else 0 }

/-- Unadjusted days of stock used by generate_warnings. -/
def rawDaysLeft (p : ProductInput) : ℚ :=
  if 0 < p.avg_daily_sales then (p.stock : ℚ) / p.avg_daily_sales else 999

/-- The non-selected low-stock products of generate_warnings, as
(name, days-left) pairs sorted ascending by days left (stable sort,
matching Python). -/
def lowStockProducts (items : List RestockItem) (all_products : List ProductInput) :
    List (String × ℚ) :=
  let selectedIds := items.map (fun it => it.product_id)
  let low := all_products.filterMap (fun p =>
    if selectedIds.contains p.product_id then none
    else if rawDaysLeft p < 3 ∧ 0 < p.avg_daily_sales then some (p.name, rawDaysLeft p)
    else none)
  low.insertionSort (fun a b => a.2 ≤ b.2)

/-- generate_warnings from restock_service.py. -/
def generateWarnings (items : List RestockItem) (all_products : List ProductInput)
    (totals : RestockTotals) : List Warning :=
  let w1 := if totals.budget_used_pct < 50 then [Warning.lowUtilization totals.budget_used_pct] else []
  let w2 := if 45 < totals.avg_days_of_stock then [Warning.highDaysOfStock totals.avg_days_of_stock] else []
  let w3 := if totals.avg_days_of_stock < 7 then [Warning.lowDaysOfStock totals.avg_days_of_stock] else []
  let low := lowStockProducts items all_products
  let shown := low.take 10
  let w4 := shown.map (fun nd => Warning.lowStockItem nd.1 nd.2)
  let remaining : ℤ := (low.length : ℤ) - 10
  let w5 := if 0 < remaining then [Warning.lowStockMore remaining] else []
  let crit := (low.filter (fun nd => decide (nd.2 < 1))).length
  let warn := (low.filter (fun nd => decide (1 ≤ nd.2 ∧ nd.2 < 2))).length
  let info := (low.filter (fun nd => decide (2 ≤ nd.2 ∧ nd.2 < 3))).length
  let w6 :=
    if 0 < low.length then
      if 0 < crit ∨ 0 < warn ∨ 0 < info then [Warning.lowStockSummary crit warn info] else []
    else []
  w1 ++ w2 ++ w3 ++ w4 ++ w5 ++ w6

/-- The candidate filter of compute_restock_strategy: keep products whose
price is strictly above cost, with positive price and cost. -/
def validProducts (products : List ProductInput) : List ProductInput :=
  products.filter (fun p => decide (p.cost < p.price ∧ 0 < p.price ∧ 0 < p.cost))

/-- compute_restock_strategy from restock_service.py. -/
def computeRestockStrategy (r : RestockRequest) : RestockResponse :=
  let valid := validProducts r.products
  if valid.isEmpty then
    { strategy := r.goal
      shop_id := r.shop_id
      budget := r.budget
      items := []
      totals :=
        { total_items := 0, total_qty := 0, total_cost := 0, budget_used_pct := 0
          expected_revenue := 0, expected_profit := 0, expected_roi := 0
          avg_days_of_stock := 0 }
      warnings := [Warning.noValidProducts] }
  else
    let items :=
      match r.goal with
      | RestockGoal.profit =>
        profitMaximization valid r.budget r.restock_days r.is_payday r.upcoming_holiday
      | RestockGoal.volume =>
        volumeMaximization valid r.budget r.restock_days r.is_payday r.upcoming_holiday
      | RestockGoal.balanced =>
        balancedStrategy valid r.budget r.restock_days r.is_payday r.upcoming_holiday
    let totals := computeTotals items r.budget
    let warnings :=
      generateWarnings items r.products totals ++
        (if valid.length < r.products.length then
          [Warning.excludedCount (r.products.length - valid.length)]
        else [])
    { strategy := r.goal
      shop_id := r.shop_id
      budget := r.budget
      items := items
      totals := totals
      warnings := warnings }

/-- validate_profit_margin from restock_schema.py (the case where price
and cost are both present in the validation data). -/
def validateProfitMargin (price cost v : ℚ) : ℚ :=
  let expected := (price - cost) / price
  if 1/100 < |v - expected| then max 0 (min 1 expected) else v

/-- Validity facts the schema guarantees for every product: positive
cost, min_order_qty at least one, and max_order_qty at least
min_order_qty when present. -/
def ProductOk (p : ProductInput) : Prop :=
  0 < p.cost ∧ 1 ≤ p.min_order_qty ∧ p.min_order_qty ≤ p.max_order_qty.getD p.min_order_qty

/-- A product is classified critical under the request context when its
adjusted days of stock are below one. -/
def criticalFor (is_payday : Bool) (upcoming_holiday : Option String)
    (p : ProductInput) : Prop :=
  currentDaysOfStock p.stock (adjustedDemand is_payday upcoming_holiday p) < 1

/-- The emergency quantity computed for a product under the request
context. -/
def emergencyCapFor (is_payday : Bool) (upcoming_holiday : Option String)
    (p : ProductInput) : ℤ :=
  emergencyQtyOf p (adjustedDemand is_payday upcoming_holiday p)

instance (p : ProductInput) : Decidable (ProductOk p) := by
  unfold ProductOk
  infer_instance

/-- The shape every strategy's scoring loop gives its candidates: each
comes from a product of the input list, with the full-cycle quantity,
the days-of-stock value, and no emergency data yet. -/
def CandidatesFrom (ps : List ProductInput) (rd : ℤ) (pd : Bool)
    (hol : Option String) (cands : List Scored) : Prop :=
  ∀ c ∈ cands, ∃ p ∈ ps, c.product = p ∧
    c.qty = fullCycleQty p (adjustedDemand pd hol p) rd ∧ 0 < c.qty ∧
    c.currentDays = currentDaysOfStock p.stock (adjustedDemand pd hol p) ∧
    c.emergencyQty = none

/-- Concrete product used by several witnesses. -/
def wProduct : ProductInput :=
  { product_id := 1, name := "a", price := 2, cost := 1, stock := 0,
    avg_daily_sales := 1, profit_margin := 1/2, min_order_qty := 1, max_order_qty := none }

/-- Concrete request used by the C1 witness. -/
def wRequest : RestockRequest :=
  { shop_id := "s", budget := 100, goal := RestockGoal.profit, products := [wProduct],
    restock_days := 14, is_payday := false, upcoming_holiday := none }

/-- Concrete item used by several witnesses: the output of the profit
strategy on the single witness product. -/
def wItem : RestockItem :=
  { product_id := 1, name := "a", qty := 5, unit_cost := 1, total_cost := 5,
    expected_profit := 5, expected_revenue := 10, days_of_stock := 5, priority_score := 10 }

/-- The urgency step function exactly as the specification lists it, with
two-sided interval conditions read in order. -/
def urgencyStepSpec (days : ℚ) (restock_days : ℤ) : ℚ :=
  if days < 1/2 then 10
  else if 1/2 ≤ days ∧ days < 1 then 8
  else if 1 ≤ days ∧ days < 2 then 5
  else if 2 ≤ days ∧ days < 3 then 3
  else if 3 ≤ days ∧ days < 7 then 2
  else if 7 ≤ days ∧ days < (restock_days : ℚ) then 3/2
  else 1

/-- The stockout-penalty step function exactly as the specification lists
it. -/
def stockoutPenaltySpec (days : ℚ) (restock_days : ℤ) : ℚ :=
  if days < 1/2 then 1
  else if days < 1 then 9/10
  else if days < 2 then 7/10
  else if days < 3 then 5/10
  else if days < 7 then 2/10
  else if days < (restock_days : ℚ) then 1/10
  else 0

/-- Concrete balanced candidate used by the C9 witness. -/
def wBalancedCandidate : Scored :=
  { product := wProduct, score := 3/2, qty := 14, profitPerUnit := 1,
    urgency := 10, currentDays := 0, emergencyQty := none, emergencyCost := 0,
    efficiency := 0 }

instance (pd : Bool) (hol : Option String) (p : ProductInput) :
    Decidable (criticalFor pd hol p) := by
  unfold criticalFor
  infer_instance

/-- First product of the C6 counterexample: critical, and its emergency
cost consumes the whole budget. -/
def cexProductA : ProductInput :=
  { product_id := 1, name := "A", price := 20, cost := 10, stock := 0,
    avg_daily_sales := 2, profit_margin := 1/2, min_order_qty := 1, max_order_qty := none }

/-- Second product of the C6 counterexample: critical and affordable
within the original budget, but never reached by the allocator. -/
def cexProductB : ProductInput :=
  { product_id := 2, name := "B", price := 100, cost := 60, stock := 0,
    avg_daily_sales := 1, profit_margin := 2/5, min_order_qty := 1, max_order_qty := none }

/-- Concrete enriched candidate for the C6 amended witness. -/
def wCritCandidate : Scored :=
  { product := wProduct, score := 10, qty := 14, profitPerUnit := 1,
    urgency := 10, currentDays := 0, emergencyQty := some 5, emergencyCost := 5,
    efficiency := 2 }

/-- Recognizer for the excluded-count warning entry. -/
def isExcludedCountWarning : Warning → Bool
  | Warning.excludedCount _ => true
  | _ => false

/-- Product removed by the candidate filter (cost equals price). -/
def cexFilteredProduct : ProductInput :=
  { product_id := 3, name := "F", price := 5, cost := 5, stock := 0,
    avg_daily_sales := 1, profit_margin := 0, min_order_qty := 1, max_order_qty := none }

/-- Request whose only product is removed by the filter. -/
def cexFilteredRequest : RestockRequest :=
  { shop_id := "s", budget := 10, goal := RestockGoal.profit,
    products := [cexFilteredProduct], restock_days := 14, is_payday := false,
    upcoming_holiday := none }

/-- Request with one valid and one filtered product for the C8 amended
witness. -/
def wMixedRequest : RestockRequest :=
  { shop_id := "s", budget := 100, goal := RestockGoal.profit,
    products := [wProduct, cexFilteredProduct], restock_days := 14,
    is_payday := false, upcoming_holiday := none }

theorem ProductOk.cost_pos {p : ProductInput} (h : ProductOk p) : 0 < p.cost := h.1

theorem ProductOk.min_one {p : ProductInput} (h : ProductOk p) : 1 ≤ p.min_order_qty := h.2.1

theorem ProductOk.min_le_max {p : ProductInput} (h : ProductOk p) {m : ℤ}
    (hm : p.max_order_qty = some m) : p.min_order_qty ≤ m := by
  have h2 := h.2.2
  rw [hm] at h2
  simpa using h2

theorem commit_spec {b : ℚ} {c : Scored} {it : RestockItem} (h : commit b c = some it) :
    ∃ q tc, attemptQty b c = some (q, tc) ∧ 0 < q ∧ tc ≤ b ∧
      it.product_id = c.product.product_id ∧ it.name = c.product.name ∧
      it.qty = q ∧ it.unit_cost = c.product.cost ∧ it.total_cost = tc := by
  unfold commit at h
  split at h
  · exact absurd h (by simp)
  next q tc ha =>
    split at h
    next hg =>
      refine ⟨q, tc, ha, hg.1, hg.2, ?_⟩
      obtain rfl := Option.some.inj h
      exact ⟨rfl, rfl, rfl, rfl, rfl⟩
    next => exact absurd h (by simp)

theorem allocLoop_nil (b : ℚ) : allocLoop b [] = [] := rfl

theorem allocLoop_cons_none {b : ℚ} {c : Scored} {l : List Scored}
    (h : commit b c = none) : allocLoop b (c :: l) = allocLoop b l := by
  conv_lhs => unfold allocLoop
  rw [h]

theorem allocLoop_cons_some {b : ℚ} {c : Scored} {l : List Scored} {it : RestockItem}
    (h : commit b c = some it) :
    allocLoop b (c :: l) =
      if b - it.total_cost < 1 then [it] else it :: allocLoop (b - it.total_cost) l := by
  conv_lhs => unfold allocLoop
  rw [h]

theorem allocLoop_cost_le : ∀ (l : List Scored) (b : ℚ), 0 ≤ b →
    ((allocLoop b l).map (fun it => it.total_cost)).sum ≤ b := by
  intro l
  induction l with
  | nil => intro b hb; simpa [allocLoop_nil] using hb
  | cons c rest ih =>
    intro b hb
    cases hc : commit b c with
    | none => rw [allocLoop_cons_none hc]; exact ih b hb
    | some it =>
      obtain ⟨q, tc, _, _, htcb, _, _, _, _, htc⟩ := commit_spec hc
      rw [allocLoop_cons_some hc]
      split
      · simpa [htc] using htcb
      next hbr =>
        push_neg at hbr
        have hrec := ih (b - it.total_cost) (by linarith)
        simp only [List.map_cons, List.sum_cons]
        linarith

theorem mem_allocLoop : ∀ {l : List Scored} {b : ℚ} {it : RestockItem},
    it ∈ allocLoop b l → ∃ c ∈ l, ∃ b', commit b' c = some it := by
  intro l
  induction l with
  | nil => intro b it h; simp [allocLoop_nil] at h
  | cons c rest ih =>
    intro b it h
    cases hc : commit b c with
    | none =>
      rw [allocLoop_cons_none hc] at h
      obtain ⟨c', hc', b', hb'⟩ := ih h
      exact ⟨c', List.mem_cons_of_mem _ hc', b', hb'⟩
    | some it0 =>
      rw [allocLoop_cons_some hc] at h
      split at h
      · rw [List.mem_singleton] at h
        exact ⟨c, List.mem_cons_self _ _, b, h ▸ hc⟩
      · rcases List.mem_cons.mp h with rfl | h2
        · exact ⟨c, List.mem_cons_self _ _, b, hc⟩
        · obtain ⟨c', hc', b', hb'⟩ := ih h2
          exact ⟨c', List.mem_cons_of_mem _ hc', b', hb'⟩

theorem allocLoop_append : ∀ (xs ys : List Scored) (b : ℚ), ∃ as2 bs2,
    allocLoop b (xs ++ ys) = as2 ++ bs2 ∧
    (∀ a ∈ as2, ∃ c ∈ xs, ∃ b', commit b' c = some a) ∧
    (∀ a ∈ bs2, ∃ c ∈ ys, ∃ b', commit b' c = some a) := by
  intro xs
  induction xs with
  | nil =>
    intro ys b
    refine ⟨[], allocLoop b ys, by simp, by simp, ?_⟩
    intro a ha
    exact mem_allocLoop ha
  | cons c xs ih =>
    intro ys b
    rw [List.cons_append]
    cases hc : commit b c with
    | none =>
      rw [allocLoop_cons_none hc]
      obtain ⟨as2, bs2, heq, h1, h2⟩ := ih ys b
      exact ⟨as2, bs2, heq, fun a ha => by
        obtain ⟨c', hc', b', hb'⟩ := h1 a ha
        exact ⟨c', List.mem_cons_of_mem _ hc', b', hb'⟩, h2⟩
    | some it =>
      rw [allocLoop_cons_some hc]
      split
      · refine ⟨[it], [], by simp, ?_, by simp⟩
        intro a ha
        rw [List.mem_singleton] at ha
        exact ⟨c, List.mem_cons_self _ _, b, ha ▸ hc⟩
      · obtain ⟨as2, bs2, heq, h1, h2⟩ := ih ys (b - it.total_cost)
        refine ⟨it :: as2, bs2, by rw [heq, List.cons_append], ?_, h2⟩
        intro a ha
        rcases List.mem_cons.mp ha with rfl | ha2
        · exact ⟨c, List.mem_cons_self _ _, b, hc⟩
        · obtain ⟨c', hc', b', hb'⟩ := h1 a ha2
          exact ⟨c', List.mem_cons_of_mem _ hc', b', hb'⟩

theorem nonCriticalAttempt_eq (b : ℚ) (c : Scored) :
    nonCriticalAttempt b c =
      if b < c.product.cost * (c.qty : ℚ) then
        if pyInt (b / c.product.cost) < c.product.min_order_qty then none
        else some (pyInt (b / c.product.cost), c.product.cost * ((pyInt (b / c.product.cost) : ℤ) : ℚ))
      else some (c.qty, c.product.cost * (c.qty : ℚ)) := rfl

theorem attemptQty_eq_none {c : Scored} (h : c.emergencyQty = none) (b : ℚ) :
    attemptQty b c = nonCriticalAttempt b c := by
  unfold attemptQty
  rw [h]

theorem attemptQty_eq_some {c : Scored} {e : ℤ} (h : c.emergencyQty = some e) (b : ℚ) :
    attemptQty b c =
      if 0 < e then
        if b < c.emergencyCost then
          if pyInt (b / c.product.cost) < c.product.min_order_qty then none
          else some (min (pyInt (b / c.product.cost)) e,
            c.product.cost * ((min (pyInt (b / c.product.cost)) e : ℤ) : ℚ))
        else some (e, c.emergencyCost)
      else nonCriticalAttempt b c := by
  unfold attemptQty
  rw [h]

theorem afford_bounds {b cost : ℚ} {minq qfull : ℤ} (hc : 0 < cost) (hm : 1 ≤ minq)
    (hge : ¬ pyInt (b / cost) < minq) (hlt : b < cost * (qfull : ℚ)) :
    minq ≤ pyInt (b / cost) ∧ pyInt (b / cost) < qfull := by
  push_neg at hge
  rcases le_or_lt 0 (b / cost) with h0 | h0
  · rw [pyInt, if_pos h0] at hge ⊢
    refine ⟨hge, ?_⟩
    rw [Int.floor_lt]
    rw [div_lt_iff₀ hc]
    linarith [hlt]
  · exfalso
    rw [pyInt, if_neg (not_le.mpr h0)] at hge
    have hcl : ⌈b / cost⌉ ≤ 0 := Int.ceil_le.mpr (by exact_mod_cast h0.le)
    omega

theorem nonCriticalAttempt_bounds {b : ℚ} {c : Scored} {q : ℤ} {tc : ℚ}
    (hc : 0 < c.product.cost) (hm : 1 ≤ c.product.min_order_qty)
    (hq : c.product.min_order_qty ≤ c.qty)
    (hqm : ∀ m, c.product.max_order_qty = some m → c.qty ≤ m)
    (h : nonCriticalAttempt b c = some (q, tc)) :
    c.product.min_order_qty ≤ q ∧ ∀ m, c.product.max_order_qty = some m → q ≤ m := by
  rw [nonCriticalAttempt_eq] at h
  split at h
  next hlt =>
    split at h
    next => exact absurd h (by simp)
    next hge =>
      injection h with h
      injection h with h1 h2
      subst h1
      have hb := afford_bounds hc hm hge hlt
      exact ⟨hb.1, fun m hmm => le_trans (le_of_lt hb.2) (hqm m hmm)⟩
  next =>
    injection h with h
    injection h with h1 h2
    subst h1
    exact ⟨hq, hqm⟩

theorem attemptQty_bounds {b : ℚ} {c : Scored} {q : ℤ} {tc : ℚ}
    (hc : 0 < c.product.cost) (hm : 1 ≤ c.product.min_order_qty)
    (hq : c.product.min_order_qty ≤ c.qty)
    (hqm : ∀ m, c.product.max_order_qty = some m → c.qty ≤ m)
    (hem : ∀ e, c.emergencyQty = some e →
      c.product.min_order_qty ≤ e ∧ ∀ m, c.product.max_order_qty = some m → e ≤ m)
    (h : attemptQty b c = some (q, tc)) :
    c.product.min_order_qty ≤ q ∧ ∀ m, c.product.max_order_qty = some m → q ≤ m := by
  cases hce : c.emergencyQty with
  | none =>
    rw [attemptQty_eq_none hce] at h
    exact nonCriticalAttempt_bounds hc hm hq hqm h
  | some e =>
    rw [attemptQty_eq_some hce] at h
    obtain ⟨he1, he2⟩ := hem e hce
    split at h
    next hepos =>
      split at h
      next hlt =>
        split at h
        next => exact absurd h (by simp)
        next hge =>
          injection h with h
          injection h with h1 h2
          subst h1
          push_neg at hge
          constructor
          · exact le_min hge he1
          · intro m hmm
            exact le_trans (min_le_right _ _) (he2 m hmm)
      next =>
        injection h with h
        injection h with h1 h2
        subst h1
        exact ⟨he1, he2⟩
    next => exact nonCriticalAttempt_bounds hc hm hq hqm h

theorem attemptQty_le_emergency {b : ℚ} {c : Scored} {q : ℤ} {tc : ℚ} {e : ℤ}
    (hce : c.emergencyQty = some e) (hepos : 0 < e)
    (h : attemptQty b c = some (q, tc)) : q ≤ e := by
  rw [attemptQty_eq_some hce, if_pos hepos] at h
  split at h
  next =>
    split at h
    next => exact absurd h (by simp)
    next =>
      injection h with h
      injection h with h1 h2
      subst h1
      exact min_le_right _ _
  next =>
    injection h with h
    injection h with h1 h2
    subst h1
    exact le_refl e

theorem baseCandidate_spec {rd : ℤ} {pd : Bool} {hol : Option String} {s pp u : ℚ}
    {p : ProductInput} {c : Scored}
    (h : baseCandidate rd pd hol s pp u p = some c) :
    c.product = p ∧ c.score = s ∧ c.profitPerUnit = pp ∧
      c.qty = fullCycleQty p (adjustedDemand pd hol p) rd ∧ 0 < c.qty ∧
      c.currentDays = currentDaysOfStock p.stock (adjustedDemand pd hol p) ∧
      c.emergencyQty = none := by
  simp only [baseCandidate] at h
  split at h
  next hq =>
    injection h with h
    subst h
    exact ⟨rfl, rfl, rfl, rfl, hq, rfl, rfl⟩
  next => exact absurd h (by simp)

theorem fullCycleQty_bounds {p : ProductInput} {adj : ℚ} {rd : ℤ}
    (hm : 1 ≤ p.min_order_qty)
    (hmm : ∀ m, p.max_order_qty = some m → p.min_order_qty ≤ m)
    (hpos : 0 < fullCycleQty p adj rd) :
    p.min_order_qty ≤ fullCycleQty p adj rd ∧
      ∀ m, p.max_order_qty = some m → fullCycleQty p adj rd ≤ m := by
  simp only [fullCycleQty] at hpos ⊢
  split at hpos
  next hn =>
    cases hmo : p.max_order_qty with
    | none =>
      simp only [hmo]
      rw [if_pos hn]
      refine ⟨le_max_right _ _, ?_⟩
      intro m hm2
      exact absurd hm2 (by simp)
    | some m =>
      simp only [hmo]
      rw [if_pos hn]
      refine ⟨le_min (le_max_right _ _) (hmm m hmo), ?_⟩
      intro m2 hm2
      injection hm2 with hm2
      subst hm2
      exact min_le_right _ _
  next hn => exact absurd hpos hn

theorem emergencyQtyOf_bounds {p : ProductInput} (adj : ℚ)
    (hm : 1 ≤ p.min_order_qty)
    (hmm : ∀ m, p.max_order_qty = some m → p.min_order_qty ≤ m) :
    p.min_order_qty ≤ emergencyQtyOf p adj ∧
      ∀ m, p.max_order_qty = some m → emergencyQtyOf p adj ≤ m := by
  simp only [emergencyQtyOf]
  have he1 : p.min_order_qty ≤
      (if 0 < max 0 (pyInt (adj * (emergencyDaysOf adj : ℚ) - (p.stock : ℚ))) then
        max (max 0 (pyInt (adj * (emergencyDaysOf adj : ℚ) - (p.stock : ℚ)))) p.min_order_qty
      else p.min_order_qty) := by
    split
    · exact le_max_right _ _
    · exact le_refl _
  cases hmo : p.max_order_qty with
  | none =>
    simp only [hmo]
    refine ⟨he1, ?_⟩
    intro m hm2
    exact absurd hm2 (by simp)
  | some m =>
    simp only [hmo]
    refine ⟨le_min he1 (hmm m hmo), ?_⟩
    intro m2 hm2
    injection hm2 with hm2
    subst hm2
    exact min_le_right _ _

theorem enrich_product (pd : Bool) (hol : Option String) (c : Scored) :
    (enrich pd hol c).product = c.product := rfl

theorem enrich_qty (pd : Bool) (hol : Option String) (c : Scored) :
    (enrich pd hol c).qty = c.qty := rfl

theorem enrich_score (pd : Bool) (hol : Option String) (c : Scored) :
    (enrich pd hol c).score = c.score := rfl

theorem enrich_currentDays (pd : Bool) (hol : Option String) (c : Scored) :
    (enrich pd hol c).currentDays = c.currentDays := rfl

theorem enrich_emergencyQty (pd : Bool) (hol : Option String) (c : Scored) :
    (enrich pd hol c).emergencyQty =
      some (emergencyQtyOf c.product (adjustedDemand pd hol c.product)) := rfl

theorem mem_sortByDesc {key : Scored → ℚ} {l : List Scored} {c : Scored} :
    c ∈ sortByDesc key l ↔ c ∈ l := by
  unfold sortByDesc
  exact List.mem_insertionSort _

theorem sorted_sortByDesc (key : Scored → ℚ) (l : List Scored) :
    (sortByDesc key l).Sorted (fun a b => key b ≤ key a) := by
  unfold sortByDesc
  haveI : IsTotal Scored (fun a b => key b ≤ key a) := ⟨fun a b => le_total (key b) (key a)⟩
  haveI : IsTrans Scored (fun a b => key b ≤ key a) :=
    ⟨fun a b c h1 h2 => le_trans h2 h1⟩
  exact List.sorted_insertionSort _ l

theorem mem_mkSorted {c2 : Scored} {pd : Bool} {hol : Option String} {cands : List Scored}
    (h : c2 ∈ mkSorted pd hol cands) :
    (∃ c ∈ cands, c.currentDays < 1 ∧ c2 = enrich pd hol c) ∨
      (c2 ∈ cands ∧ ¬ c2.currentDays < 1) := by
  unfold mkSorted at h
  rcases List.mem_append.mp h with h | h
  · left
    rw [mem_sortByDesc] at h
    obtain ⟨c, hc, rfl⟩ := List.mem_map.mp h
    unfold criticalPart at hc
    rw [List.mem_filter] at hc
    exact ⟨c, hc.1, of_decide_eq_true hc.2, rfl⟩
  · right
    rw [mem_sortByDesc] at h
    unfold nonCriticalPart at h
    rw [List.mem_filter] at h
    refine ⟨h.1, ?_⟩
    have h2 := h.2
    simp only [Bool.not_eq_true', decide_eq_false_iff_not] at h2
    exact h2

theorem pipelineItems_spec {ps : List ProductInput} {cands : List Scored} {b : ℚ} {rd : ℤ}
    {pd : Bool} {hol : Option String}
    (hcands : CandidatesFrom ps rd pd hol cands)
    (hok : ∀ p ∈ ps, ProductOk p) :
    ∀ it ∈ allocLoop b (mkSorted pd hol cands), ∃ p ∈ ps,
      it.product_id = p.product_id ∧ it.name = p.name ∧ it.unit_cost = p.cost ∧
      p.min_order_qty ≤ it.qty ∧ (∀ m, p.max_order_qty = some m → it.qty ≤ m) ∧
      (criticalFor pd hol p → it.qty ≤ emergencyCapFor pd hol p) := by
  intro it hit
  obtain ⟨c2, hc2, b2, hcom⟩ := mem_allocLoop hit
  obtain ⟨q, tc, hatt, hqpos, htcb, hid, hname, hqty, hcost, htcost⟩ := commit_spec hcom
  rcases mem_mkSorted hc2 with ⟨c, hc, hcd, rfl⟩ | ⟨hc, hncd⟩
  · obtain ⟨p, hp, hprod, hq, hqpos2, hdays, hem⟩ := hcands c hc
    have hpok := hok p hp
    have hmaxok : ∀ m, p.max_order_qty = some m → p.min_order_qty ≤ m :=
      fun m hm => hpok.min_le_max hm
    have hebounds := emergencyQtyOf_bounds (p := p) (adjustedDemand pd hol p)
      hpok.min_one hmaxok
    have hepos : (0 : ℤ) < emergencyQtyOf p (adjustedDemand pd hol p) :=
      lt_of_lt_of_le (by omega) (le_trans hpok.min_one hebounds.1)
    have heq : (enrich pd hol c).emergencyQty =
        some (emergencyQtyOf p (adjustedDemand pd hol p)) := by
      rw [enrich_emergencyQty, hprod]
    have hprod2 : (enrich pd hol c).product = p := by rw [enrich_product, hprod]
    have hqty2 : (enrich pd hol c).qty = c.qty := enrich_qty pd hol c
    have hfull := fullCycleQty_bounds hpok.min_one hmaxok (hq ▸ hqpos2)
    have hbnd := attemptQty_bounds (c := enrich pd hol c)
      (by rw [hprod2]; exact hpok.cost_pos)
      (by rw [hprod2]; exact hpok.min_one)
      (by rw [hprod2, hqty2, hq]; exact hfull.1)
      (by
        intro m hm
        rw [hprod2] at hm
        rw [hqty2, hq]
        exact hfull.2 m hm)
      (by
        intro e he
        rw [heq] at he
        injection he with he
        subst he
        rw [hprod2]
        exact hebounds)
      hatt
    have hqe := attemptQty_le_emergency heq hepos hatt
    refine ⟨p, hp, ?_, ?_, ?_, ?_, ?_, ?_⟩
    · rw [hid, hprod2]
    · rw [hname, hprod2]
    · rw [hcost, hprod2]
    · rw [hqty]; rw [hprod2] at hbnd; exact hbnd.1
    · intro m hm; rw [hqty]; rw [hprod2] at hbnd; exact hbnd.2 m hm
    · intro _
      rw [hqty]
      exact hqe
  · obtain ⟨p, hp, hprod, hq, hqpos2, hdays, hem⟩ := hcands c2 hc
    have hpok := hok p hp
    have hmaxok : ∀ m, p.max_order_qty = some m → p.min_order_qty ≤ m :=
      fun m hm => hpok.min_le_max hm
    have hfull := fullCycleQty_bounds hpok.min_one hmaxok (hq ▸ hqpos2)
    have hbnd := attemptQty_bounds (c := c2)
      (by rw [hprod]; exact hpok.cost_pos)
      (by rw [hprod]; exact hpok.min_one)
      (by rw [hprod, hq]; exact hfull.1)
      (by
        intro m hm
        rw [hprod] at hm
        rw [hq]
        exact hfull.2 m hm)
      (by
        intro e he
        rw [hem] at he
        exact absurd he (by simp))
      hatt
    refine ⟨p, hp, ?_, ?_, ?_, ?_, ?_, ?_⟩
    · rw [hid, hprod]
    · rw [hname, hprod]
    · rw [hcost, hprod]
    · rw [hqty]; rw [hprod] at hbnd; exact hbnd.1
    · intro m hm; rw [hqty]; rw [hprod] at hbnd; exact hbnd.2 m hm
    · intro hcrit
      exfalso
      apply hncd
      rw [hdays]
      exact hcrit

theorem profitCandidates_spec (ps : List ProductInput) (rd : ℤ) (pd : Bool)
    (hol : Option String) :
    CandidatesFrom ps rd pd hol (ps.filterMap (profitCandidate rd pd hol)) := by
  intro c hc
  obtain ⟨p, hp, hf⟩ := List.mem_filterMap.mp hc
  simp only [profitCandidate] at hf
  obtain ⟨h1, _, _, h4, h5, h6, h7⟩ := baseCandidate_spec hf
  exact ⟨p, hp, h1, h4, h5, h6, h7⟩

theorem volumeCandidates_spec (ps : List ProductInput) (rd : ℤ) (pd : Bool)
    (hol : Option String) :
    CandidatesFrom ps rd pd hol (ps.filterMap (volumeCandidate rd pd hol)) := by
  intro c hc
  obtain ⟨p, hp, hf⟩ := List.mem_filterMap.mp hc
  simp only [volumeCandidate] at hf
  obtain ⟨h1, _, _, h4, h5, h6, h7⟩ := baseCandidate_spec hf
  exact ⟨p, hp, h1, h4, h5, h6, h7⟩

theorem balancedCandidates_spec (ps : List ProductInput) (rd : ℤ) (pd : Bool)
    (hol : Option String) :
    CandidatesFrom ps rd pd hol (balancedCandidates ps rd pd hol) := by
  intro c hc
  simp only [balancedCandidates] at hc
  obtain ⟨p, hp, hf⟩ := List.mem_filterMap.mp hc
  simp only [balancedCandidate] at hf
  obtain ⟨h1, _, _, h4, h5, h6, h7⟩ := baseCandidate_spec hf
  exact ⟨p, hp, h1, h4, h5, h6, h7⟩

theorem pipelineItems_product {ps : List ProductInput} {cands : List Scored} {b : ℚ}
    {rd : ℤ} {pd : Bool} {hol : Option String}
    (hcands : CandidatesFrom ps rd pd hol cands) :
    ∀ it ∈ allocLoop b (mkSorted pd hol cands), ∃ p ∈ ps,
      it.product_id = p.product_id ∧ it.name = p.name ∧ it.unit_cost = p.cost := by
  intro it hit
  obtain ⟨c2, hc2, b2, hcom⟩ := mem_allocLoop hit
  obtain ⟨q, tc, hatt, hqpos, htcb, hid, hname, hqty, hcost, htcost⟩ := commit_spec hcom
  rcases mem_mkSorted hc2 with ⟨c, hc, hcd, rfl⟩ | ⟨hc, hncd⟩
  · obtain ⟨p, hp, hprod, _⟩ := hcands c hc
    have hprod2 : (enrich pd hol c).product = p := by rw [enrich_product, hprod]
    exact ⟨p, hp, by rw [hid, hprod2], by rw [hname, hprod2], by rw [hcost, hprod2]⟩
  · obtain ⟨p, hp, hprod, _⟩ := hcands c2 hc
    exact ⟨p, hp, by rw [hid, hprod], by rw [hname, hprod], by rw [hcost, hprod]⟩

/-- C1: for every valid restock request (positive budget, at least one
product) and every objective, the sum of total_cost over the items
returned by compute_restock_strategy is at most the request's budget. -/
theorem restock_total_cost_le_budget (r : RestockRequest)
    (hb : 0 < r.budget) (hp : r.products ≠ []) :
    (((computeRestockStrategy r).items).map (fun it => it.total_cost)).sum ≤ r.budget := by
  simp only [computeRestockStrategy]
  split
  · simpa using le_of_lt hb
  · cases r.goal with
    | profit =>
      simp only [profitMaximization]
      exact allocLoop_cost_le _ _ (le_of_lt hb)
    | volume =>
      simp only [volumeMaximization]
      exact allocLoop_cost_le _ _ (le_of_lt hb)
    | balanced =>
      simp only [balancedStrategy]
      exact allocLoop_cost_le _ _ (le_of_lt hb)

/-- Witness for C1 at a concrete request. -/
theorem restock_total_cost_le_budget_witness :
    (((computeRestockStrategy wRequest).items).map (fun it => it.total_cost)).sum ≤
      wRequest.budget :=
  restock_total_cost_le_budget wRequest
    (of_decide_eq_true (by with_unfolding_all rfl))
    (of_decide_eq_true (by with_unfolding_all rfl))

/-- C2: in every strategy, an item selected for a product classified
critical never exceeds that product's computed emergency quantity,
whether the emergency cost fit the remaining budget or only a partial
quantity was affordable. -/
theorem critical_item_qty_le_emergency (ps : List ProductInput) (b : ℚ) (rd : ℤ)
    (pd : Bool) (hol : Option String) (hok : ∀ p ∈ ps, ProductOk p) :
    (∀ it ∈ profitMaximization ps b rd pd hol, ∃ p ∈ ps,
      it.product_id = p.product_id ∧
      (criticalFor pd hol p → it.qty ≤ emergencyCapFor pd hol p)) ∧
    (∀ it ∈ volumeMaximization ps b rd pd hol, ∃ p ∈ ps,
      it.product_id = p.product_id ∧
      (criticalFor pd hol p → it.qty ≤ emergencyCapFor pd hol p)) ∧
    (∀ it ∈ balancedStrategy ps b rd pd hol, ∃ p ∈ ps,
      it.product_id = p.product_id ∧
      (criticalFor pd hol p → it.qty ≤ emergencyCapFor pd hol p)) := by
  refine ⟨?_, ?_, ?_⟩
  · intro it hit
    simp only [profitMaximization] at hit
    obtain ⟨p, hp, hid, _, _, _, _, hcap⟩ :=
      pipelineItems_spec (profitCandidates_spec ps rd pd hol) hok it hit
    exact ⟨p, hp, hid, hcap⟩
  · intro it hit
    simp only [volumeMaximization] at hit
    obtain ⟨p, hp, hid, _, _, _, _, hcap⟩ :=
      pipelineItems_spec (volumeCandidates_spec ps rd pd hol) hok it hit
    exact ⟨p, hp, hid, hcap⟩
  · intro it hit
    simp only [balancedStrategy] at hit
    obtain ⟨p, hp, hid, _, _, _, _, hcap⟩ :=
      pipelineItems_spec (balancedCandidates_spec ps rd pd hol) hok it hit
    exact ⟨p, hp, hid, hcap⟩

/-- Witness for C2 at a concrete input: the emergency cap holds for the
item actually selected by the profit strategy. -/
theorem critical_item_qty_le_emergency_witness :
    ∃ p ∈ [wProduct], wItem.product_id = p.product_id ∧
      (criticalFor false none p → wItem.qty ≤ emergencyCapFor false none p) :=
  (critical_item_qty_le_emergency [wProduct] 100 14 false none
      (of_decide_eq_true (by with_unfolding_all rfl))).1
    wItem (of_decide_eq_true (by with_unfolding_all rfl))

/-- C3: in every strategy, each returned item's quantity is at least the
product's min_order_qty and at most its max_order_qty when set,
including budget-reduced quantities. -/
theorem item_qty_within_order_limits (ps : List ProductInput) (b : ℚ) (rd : ℤ)
    (pd : Bool) (hol : Option String) (hok : ∀ p ∈ ps, ProductOk p) :
    (∀ it ∈ profitMaximization ps b rd pd hol, ∃ p ∈ ps,
      it.product_id = p.product_id ∧ p.min_order_qty ≤ it.qty ∧
      ∀ m, p.max_order_qty = some m → it.qty ≤ m) ∧
    (∀ it ∈ volumeMaximization ps b rd pd hol, ∃ p ∈ ps,
      it.product_id = p.product_id ∧ p.min_order_qty ≤ it.qty ∧
      ∀ m, p.max_order_qty = some m → it.qty ≤ m) ∧
    (∀ it ∈ balancedStrategy ps b rd pd hol, ∃ p ∈ ps,
      it.product_id = p.product_id ∧ p.min_order_qty ≤ it.qty ∧
      ∀ m, p.max_order_qty = some m → it.qty ≤ m) := by
  refine ⟨?_, ?_, ?_⟩
  · intro it hit
    simp only [profitMaximization] at hit
    obtain ⟨p, hp, hid, _, _, hlo, hhi, _⟩ :=
      pipelineItems_spec (profitCandidates_spec ps rd pd hol) hok it hit
    exact ⟨p, hp, hid, hlo, hhi⟩
  · intro it hit
    simp only [volumeMaximization] at hit
    obtain ⟨p, hp, hid, _, _, hlo, hhi, _⟩ :=
      pipelineItems_spec (volumeCandidates_spec ps rd pd hol) hok it hit
    exact ⟨p, hp, hid, hlo, hhi⟩
  · intro it hit
    simp only [balancedStrategy] at hit
    obtain ⟨p, hp, hid, _, _, hlo, hhi, _⟩ :=
      pipelineItems_spec (balancedCandidates_spec ps rd pd hol) hok it hit
    exact ⟨p, hp, hid, hlo, hhi⟩

/-- Witness for C3 at a concrete input. -/
theorem item_qty_within_order_limits_witness :
    ∃ p ∈ [wProduct], wItem.product_id = p.product_id ∧ p.min_order_qty ≤ wItem.qty ∧
      ∀ m, p.max_order_qty = some m → wItem.qty ≤ m :=
  (item_qty_within_order_limits [wProduct] 100 14 false none
      (of_decide_eq_true (by with_unfolding_all rfl))).1
    wItem (of_decide_eq_true (by with_unfolding_all rfl))

theorem mkSorted_alloc_split (pd : Bool) (hol : Option String) (cands : List Scored)
    (b : ℚ) :
    ∃ cs ns, mkSorted pd hol cands = cs ++ ns ∧
      cs.Sorted (fun a b => b.efficiency ≤ a.efficiency) ∧
      ns.Sorted (fun a b => b.score ≤ a.score) ∧
      (∀ c ∈ cs, c.currentDays < 1) ∧ (∀ c ∈ ns, ¬ c.currentDays < 1) ∧
      ∃ as2 bs2, allocLoop b (mkSorted pd hol cands) = as2 ++ bs2 ∧
        (∀ a ∈ as2, ∃ c ∈ cs, ∃ b', commit b' c = some a) ∧
        (∀ a ∈ bs2, ∃ c ∈ ns, ∃ b', commit b' c = some a) := by
  refine ⟨sortByDesc (fun c => c.efficiency) ((criticalPart cands).map (enrich pd hol)),
    sortByDesc (fun c => c.score) (nonCriticalPart cands), rfl,
    sorted_sortByDesc _ _, sorted_sortByDesc _ _, ?_, ?_, ?_⟩
  · intro c hc
    rw [mem_sortByDesc] at hc
    obtain ⟨c0, hc0, rfl⟩ := List.mem_map.mp hc
    rw [enrich_currentDays]
    unfold criticalPart at hc0
    exact of_decide_eq_true (List.mem_filter.mp hc0).2
  · intro c hc
    rw [mem_sortByDesc] at hc
    unfold nonCriticalPart at hc
    have h2 := (List.mem_filter.mp hc).2
    simp only [Bool.not_eq_true', decide_eq_false_iff_not] at h2
    exact h2
  · exact allocLoop_append _ _ b

/-- C4: in every strategy the candidate order is two-phase, critical
candidates (sorted descending by efficiency) strictly before
non-critical candidates (sorted descending by raw score), and the
returned item list splits accordingly, every item committed for a
critical candidate preceding every item committed for a non-critical
one. -/
theorem two_phase_ordering (ps : List ProductInput) (b : ℚ) (rd : ℤ) (pd : Bool)
    (hol : Option String) :
    (∃ cs ns, mkSorted pd hol (ps.filterMap (profitCandidate rd pd hol)) = cs ++ ns ∧
      cs.Sorted (fun a b => b.efficiency ≤ a.efficiency) ∧
      ns.Sorted (fun a b => b.score ≤ a.score) ∧
      (∀ c ∈ cs, c.currentDays < 1) ∧ (∀ c ∈ ns, ¬ c.currentDays < 1) ∧
      ∃ as2 bs2, profitMaximization ps b rd pd hol = as2 ++ bs2 ∧
        (∀ a ∈ as2, ∃ c ∈ cs, ∃ b', commit b' c = some a) ∧
        (∀ a ∈ bs2, ∃ c ∈ ns, ∃ b', commit b' c = some a)) ∧
    (∃ cs ns, mkSorted pd hol (ps.filterMap (volumeCandidate rd pd hol)) = cs ++ ns ∧
      cs.Sorted (fun a b => b.efficiency ≤ a.efficiency) ∧
      ns.Sorted (fun a b => b.score ≤ a.score) ∧
      (∀ c ∈ cs, c.currentDays < 1) ∧ (∀ c ∈ ns, ¬ c.currentDays < 1) ∧
      ∃ as2 bs2, volumeMaximization ps b rd pd hol = as2 ++ bs2 ∧
        (∀ a ∈ as2, ∃ c ∈ cs, ∃ b', commit b' c = some a) ∧
        (∀ a ∈ bs2, ∃ c ∈ ns, ∃ b', commit b' c = some a)) ∧
    (∃ cs ns, mkSorted pd hol (balancedCandidates ps rd pd hol) = cs ++ ns ∧
      cs.Sorted (fun a b => b.efficiency ≤ a.efficiency) ∧
      ns.Sorted (fun a b => b.score ≤ a.score) ∧
      (∀ c ∈ cs, c.currentDays < 1) ∧ (∀ c ∈ ns, ¬ c.currentDays < 1) ∧
      ∃ as2 bs2, balancedStrategy ps b rd pd hol = as2 ++ bs2 ∧
        (∀ a ∈ as2, ∃ c ∈ cs, ∃ b', commit b' c = some a) ∧
        (∀ a ∈ bs2, ∃ c ∈ ns, ∃ b', commit b' c = some a)) := by
  refine ⟨?_, ?_, ?_⟩
  · simpa only [profitMaximization] using
      mkSorted_alloc_split pd hol (ps.filterMap (profitCandidate rd pd hol)) b
  · simpa only [volumeMaximization] using
      mkSorted_alloc_split pd hol (ps.filterMap (volumeCandidate rd pd hol)) b
  · simpa only [balancedStrategy] using
      mkSorted_alloc_split pd hol (balancedCandidates ps rd pd hol) b

/-- C5: for every stock level, adjusted demand and restock horizon in
1 to 90 days, the urgency multiplier of the scoring loops equals the
specification's step function of current_days_of_stock (with the 999
sentinel when adjusted demand is zero), and a candidate lands in the
critical partition exactly when its current days of stock are below
one. -/
theorem urgency_matches_step_spec (stock : ℤ) (adj : ℚ) (rd : ℤ)
    (h1 : 1 ≤ rd) (h90 : rd ≤ 90) :
    urgencyOf (currentDaysOfStock stock adj) rd =
      urgencyStepSpec (currentDaysOfStock stock adj) rd ∧
    ∀ (cands : List Scored) (c : Scored),
      c ∈ criticalPart cands ↔ c ∈ cands ∧ c.currentDays < 1 := by
  constructor
  · generalize currentDaysOfStock stock adj = d
    unfold urgencyOf urgencyStepSpec
    rcases lt_or_le d (1/2) with h0 | h0
    · rw [if_pos h0, if_pos h0]
    · rw [if_neg (not_lt.mpr h0), if_neg (not_lt.mpr h0)]
      rcases lt_or_le d 1 with h1 | h1
      · rw [if_pos h1, if_pos (show 1/2 ≤ d ∧ d < 1 from ⟨h0, h1⟩)]
      · rw [if_neg (not_lt.mpr h1),
          if_neg (show ¬(1/2 ≤ d ∧ d < 1) from fun hand => not_lt.mpr h1 hand.2)]
        rcases lt_or_le d 2 with h2 | h2
        · rw [if_pos h2, if_pos (show 1 ≤ d ∧ d < 2 from ⟨h1, h2⟩)]
        · rw [if_neg (not_lt.mpr h2),
            if_neg (show ¬(1 ≤ d ∧ d < 2) from fun hand => not_lt.mpr h2 hand.2)]
          rcases lt_or_le d 3 with h3 | h3
          · rw [if_pos h3, if_pos (show 2 ≤ d ∧ d < 3 from ⟨h2, h3⟩)]
          · rw [if_neg (not_lt.mpr h3),
              if_neg (show ¬(2 ≤ d ∧ d < 3) from fun hand => not_lt.mpr h3 hand.2)]
            rcases lt_or_le d 7 with h7 | h7
            · rw [if_pos h7, if_pos (show 3 ≤ d ∧ d < 7 from ⟨h3, h7⟩)]
            · rw [if_neg (not_lt.mpr h7),
                if_neg (show ¬(3 ≤ d ∧ d < 7) from fun hand => not_lt.mpr h7 hand.2)]
              rcases lt_or_le d (rd : ℚ) with hr | hr
              · rw [if_pos hr, if_pos (show 7 ≤ d ∧ d < (rd : ℚ) from ⟨h7, hr⟩)]
              · rw [if_neg (not_lt.mpr hr),
                  if_neg (show ¬(7 ≤ d ∧ d < (rd : ℚ)) from fun hand => not_lt.mpr hr hand.2)]
  · intro cands c
    unfold criticalPart
    rw [List.mem_filter]
    constructor
    · exact fun h => ⟨h.1, of_decide_eq_true h.2⟩
    · exact fun h => ⟨h.1, decide_eq_true h.2⟩

/-- Witness for C5 at a concrete input. -/
theorem urgency_matches_step_spec_witness :
    urgencyOf (currentDaysOfStock 3 (1/2)) 14 =
      urgencyStepSpec (currentDaysOfStock 3 (1/2)) 14 ∧
    ∀ (cands : List Scored) (c : Scored),
      c ∈ criticalPart cands ↔ c ∈ cands ∧ c.currentDays < 1 :=
  urgency_matches_step_spec 3 (1/2) 14 (by norm_num) (by norm_num)

/-- C7: apply_context_multipliers scales base demand by exactly 1.20 for
payday only, by exactly 1.50 for a recognized holiday only, by exactly
1.80 for both, and leaves it unchanged when neither applies (including
an unrecognized label). -/
theorem context_multipliers_exact (base : ℚ) (hbase : 0 ≤ base) (h : String)
    (hrec : recognizedHolidays.contains (pyLower h) = true) :
    applyContextMultipliers base true none = base * (12/10) ∧
    applyContextMultipliers base false (some h) = base * (15/10) ∧
    applyContextMultipliers base true (some h) = base * (18/10) ∧
    applyContextMultipliers base false none = base ∧
    (∀ h2, recognizedHolidays.contains (pyLower h2) = false →
      applyContextMultipliers base false (some h2) = base ∧
      applyContextMultipliers base true (some h2) = base * (12/10)) := by
  refine ⟨rfl, ?_, ?_, rfl, ?_⟩
  · simp only [applyContextMultipliers, hrec, Bool.false_eq_true, if_true, if_false]
    ring
  · simp only [applyContextMultipliers, hrec, if_true]
    ring
  · intro h2 hrec2
    have hnm : ¬(pyLower h2 ∈ recognizedHolidays) := by simpa using hrec2
    simp [applyContextMultipliers, hnm]

/-- Witness for C7 at a concrete base demand and label. -/
theorem context_multipliers_exact_witness :
    applyContextMultipliers 7 true none = 7 * (12/10) ∧
    applyContextMultipliers 7 false (some "Christmas") = 7 * (15/10) ∧
    applyContextMultipliers 7 true (some "Christmas") = 7 * (18/10) ∧
    applyContextMultipliers 7 false none = 7 ∧
    (∀ h2, recognizedHolidays.contains (pyLower h2) = false →
      applyContextMultipliers 7 false (some h2) = 7 ∧
      applyContextMultipliers 7 true (some h2) = 7 * (12/10)) :=
  context_multipliers_exact 7 (by norm_num) "Christmas" (by with_unfolding_all rfl)

/-- C10: the profit-margin validator replaces a supplied value that
differs from the computed ratio by more than 0.01 with that ratio
clamped to the unit interval, and keeps a value within tolerance. -/
theorem profit_margin_validator_spec (price cost v : ℚ) (hp : 0 < price) :
    (1/100 < |v - (price - cost) / price| →
      validateProfitMargin price cost v = max 0 (min 1 ((price - cost) / price))) ∧
    (|v - (price - cost) / price| ≤ 1/100 →
      validateProfitMargin price cost v = v) := by
  unfold validateProfitMargin
  constructor
  · intro h
    rw [if_pos h]
  · intro h
    rw [if_neg (not_lt.mpr h)]

/-- Witness for C10 at a concrete mismatching input. -/
theorem profit_margin_validator_spec_witness :
    validateProfitMargin 2 1 0 = max 0 (min 1 ((2 - 1) / 2)) :=
  (profit_margin_validator_spec 2 1 0 (by norm_num)).1
    (of_decide_eq_true (by with_unfolding_all rfl))

theorem urgencyPenaltyOf_snd (days : ℚ) (rd : ℤ) :
    (urgencyPenaltyOf days rd).2 = stockoutPenaltySpec days rd := by
  unfold urgencyPenaltyOf stockoutPenaltySpec
  split_ifs <;> rfl

/-- C9: every balanced candidate's hybrid priority score is half the
profit score normalized by the run-wide maximum profit score, plus half
the volume score normalized by the run-wide maximum volume score, plus
half the stockout penalty, with the zero-maximum guards. -/
theorem balanced_hybrid_score_formula (ps : List ProductInput) (rd : ℤ) (pd : Bool)
    (hol : Option String) (c : Scored)
    (hc : c ∈ balancedCandidates ps rd pd hol) :
    c.score =
      (5/10) * (if 0 < pyMaxD (ps.map (balProfitScore rd pd hol)) 1 then
          balProfitScore rd pd hol c.product / pyMaxD (ps.map (balProfitScore rd pd hol)) 1
        else 0) +
      (5/10) * (if 0 < pyMaxD (ps.map (balVolumeScore rd pd hol)) 1 then
          balVolumeScore rd pd hol c.product / pyMaxD (ps.map (balVolumeScore rd pd hol)) 1
        else 0) +
      (5/10) * stockoutPenaltySpec
        (currentDaysOfStock c.product.stock (adjustedDemand pd hol c.product)) rd := by
  simp only [balancedCandidates] at hc
  obtain ⟨p, hp, hf⟩ := List.mem_filterMap.mp hc
  simp only [balancedCandidate] at hf
  obtain ⟨hprod, hscore, _, _, _, _, _⟩ := baseCandidate_spec hf
  subst hprod
  rw [hscore, urgencyPenaltyOf_snd]
  ring

/-- Witness for C9 at a concrete input. -/
theorem balanced_hybrid_score_formula_witness :
    wBalancedCandidate.score =
      (5/10) * (if 0 < pyMaxD ([wProduct].map (balProfitScore 14 false none)) 1 then
          balProfitScore 14 false none wBalancedCandidate.product /
            pyMaxD ([wProduct].map (balProfitScore 14 false none)) 1
        else 0) +
      (5/10) * (if 0 < pyMaxD ([wProduct].map (balVolumeScore 14 false none)) 1 then
          balVolumeScore 14 false none wBalancedCandidate.product /
            pyMaxD ([wProduct].map (balVolumeScore 14 false none)) 1
        else 0) +
      (5/10) * stockoutPenaltySpec
        (currentDaysOfStock wBalancedCandidate.product.stock
          (adjustedDemand false none wBalancedCandidate.product)) 14 :=
  balanced_hybrid_score_formula [wProduct] 14 false none wBalancedCandidate
    (of_decide_eq_true (by with_unfolding_all rfl))

/-- C6 counterexample: product B is critical and at least min_order_qty
of it is affordable within the request budget, yet it does not appear in
the output, because product A is committed first at its full emergency
cost and the loop stops with the budget exhausted. -/
theorem critical_affordable_selected_counterexample :
    criticalFor false none cexProductB ∧
    cexProductB.cost * (cexProductB.min_order_qty : ℚ) ≤ 100 ∧
    ∀ it ∈ profitMaximization [cexProductA, cexProductB] 100 14 false none,
      it.product_id ≠ cexProductB.product_id :=
  of_decide_eq_true (by with_unfolding_all rfl)

theorem commit_eq_of_attempt {b : ℚ} {c : Scored} {q : ℤ} {tc : ℚ}
    (hatt : attemptQty b c = some (q, tc)) (hq : 0 < q) (htc : tc ≤ b) :
    commit b c = some
      { product_id := c.product.product_id, name := c.product.name, qty := q,
        unit_cost := c.product.cost, total_cost := tc,
        expected_profit := max 0 ((q : ℚ) * c.profitPerUnit),
        expected_revenue := (q : ℚ) * c.product.price,
        days_of_stock :=
          if 0 < c.product.avg_daily_sales then (q : ℚ) / c.product.avg_daily_sales
          else 999,
        priority_score := c.score } := by
  unfold commit
  rw [hatt]
  exact if_pos ⟨hq, htc⟩

theorem commit_of_attempt {b : ℚ} {c : Scored} {q : ℤ} {tc : ℚ}
    (hatt : attemptQty b c = some (q, tc)) (hq : 0 < q) (htc : tc ≤ b) :
    ∃ it, commit b c = some it ∧ it.product_id = c.product.product_id ∧
      it.qty = q ∧ it.total_cost = tc :=
  ⟨_, commit_eq_of_attempt hatt hq htc, rfl, rfl, rfl⟩

/-- C6 amended: if, at the moment the greedy loop considers a critical
candidate, at least min_order_qty of it is affordable from the budget
remaining at that point, the candidate is committed at the head of the
remaining output, at a quantity determined by the emergency path and
never above its emergency quantity. -/
theorem critical_affordable_selected_amended {b : ℚ} (c : Scored) (rest : List Scored)
    {e : ℤ} (he : c.emergencyQty = some e) (hepos : 0 < e)
    (hcost : 0 < c.product.cost) (hminq : 1 ≤ c.product.min_order_qty)
    (haff : (c.product.min_order_qty : ℚ) * c.product.cost ≤ b) :
    ∃ it l2, allocLoop b (c :: rest) = it :: l2 ∧
      it.product_id = c.product.product_id ∧ it.qty ≤ e := by
  have hqcast : (1 : ℚ) ≤ (c.product.min_order_qty : ℚ) := by exact_mod_cast hminq
  have hbpos : 0 < b := lt_of_lt_of_le (by nlinarith) haff
  rcases lt_or_le b c.emergencyCost with hlt | hle
  · -- partial emergency: the affordable quantity capped at the emergency quantity
    have hdiv : (c.product.min_order_qty : ℚ) ≤ b / c.product.cost :=
      (le_div_iff₀ hcost).mpr haff
    have hdivnn : 0 ≤ b / c.product.cost := le_of_lt (div_pos hbpos hcost)
    have hfl : c.product.min_order_qty ≤ pyInt (b / c.product.cost) := by
      rw [pyInt, if_pos hdivnn]
      exact Int.le_floor.mpr hdiv
    have hatt : attemptQty b c = some (min (pyInt (b / c.product.cost)) e,
        c.product.cost * ((min (pyInt (b / c.product.cost)) e : ℤ) : ℚ)) := by
      rw [attemptQty_eq_some he, if_pos hepos, if_pos hlt, if_neg (not_lt.mpr hfl)]
    have hqpos : 0 < min (pyInt (b / c.product.cost)) e :=
      lt_min (lt_of_lt_of_le (by omega) hfl) hepos
    have htcle : c.product.cost * ((min (pyInt (b / c.product.cost)) e : ℤ) : ℚ) ≤ b := by
      have h1 : ((min (pyInt (b / c.product.cost)) e : ℤ) : ℚ) ≤
          ((pyInt (b / c.product.cost) : ℤ) : ℚ) := by
        exact_mod_cast min_le_left _ _
      have h2 : ((pyInt (b / c.product.cost) : ℤ) : ℚ) ≤ b / c.product.cost := by
        rw [pyInt, if_pos hdivnn]
        exact Int.floor_le _
      calc c.product.cost * ((min (pyInt (b / c.product.cost)) e : ℤ) : ℚ)
          ≤ c.product.cost * (b / c.product.cost) := by
            exact mul_le_mul_of_nonneg_left (le_trans h1 h2) (le_of_lt hcost)
        _ = b := by field_simp
    obtain ⟨it, hcom, hid, hqty, htc⟩ := commit_of_attempt hatt hqpos htcle
    by_cases hbreak : b - it.total_cost < 1
    · exact ⟨it, [], by rw [allocLoop_cons_some hcom, if_pos hbreak], hid,
        by rw [hqty]; exact min_le_right _ _⟩
    · exact ⟨it, allocLoop (b - it.total_cost) rest,
        by rw [allocLoop_cons_some hcom, if_neg hbreak], hid,
        by rw [hqty]; exact min_le_right _ _⟩
  · -- the full emergency quantity is affordable
    have hatt : attemptQty b c = some (e, c.emergencyCost) := by
      rw [attemptQty_eq_some he, if_pos hepos, if_neg (not_lt.mpr hle)]
    obtain ⟨it, hcom, hid, hqty, htc⟩ := commit_of_attempt hatt hepos hle
    by_cases hbreak : b - it.total_cost < 1
    · exact ⟨it, [], by rw [allocLoop_cons_some hcom, if_pos hbreak], hid,
        by rw [hqty]⟩
    · exact ⟨it, allocLoop (b - it.total_cost) rest,
        by rw [allocLoop_cons_some hcom, if_neg hbreak], hid,
        by rw [hqty]⟩

/-- Witness for the amended C6 at a concrete input. -/
theorem critical_affordable_selected_amended_witness :
    ∃ it l2, allocLoop 100 [wCritCandidate] = it :: l2 ∧
      it.product_id = wCritCandidate.product.product_id ∧ it.qty ≤ 5 :=
  critical_affordable_selected_amended wCritCandidate [] rfl (by norm_num)
    (by norm_num [wCritCandidate, wProduct]) (by norm_num [wCritCandidate, wProduct])
    (by norm_num [wCritCandidate, wProduct])

/-- C8 counterexample: one product is removed by the filter, yet the
response, which short-circuits because no valid product remains, carries
no excluded-count warning at all. -/
theorem excluded_count_warning_counterexample :
    (validProducts cexFilteredRequest.products).length <
      cexFilteredRequest.products.length ∧
    (computeRestockStrategy cexFilteredRequest).warnings.all
      (fun w => !(isExcludedCountWarning w)) = true :=
  of_decide_eq_true (by with_unfolding_all rfl)

/-- C8 amended: every returned item corresponds to a product that
survives the filter (so no product with cost at least price ever yields
an item), and whenever at least one product is removed AND at least one
valid product remains, the warnings carry an excluded-count entry whose
count is exactly the number of removed products.  When every product is
removed the response short-circuits with only the no-valid-products
warning. -/
theorem excluded_count_warning_amended (r : RestockRequest) :
    (∀ it ∈ (computeRestockStrategy r).items, ∃ p ∈ r.products,
      p.cost < p.price ∧ 0 < p.price ∧ 0 < p.cost ∧
      it.product_id = p.product_id ∧ it.unit_cost = p.cost) ∧
    (validProducts r.products ≠ [] →
      (validProducts r.products).length < r.products.length →
      Warning.excludedCount (r.products.length - (validProducts r.products).length) ∈
        (computeRestockStrategy r).warnings) := by
  constructor
  · intro it hit
    simp only [computeRestockStrategy] at hit
    by_cases hemp : (validProducts r.products).isEmpty
    · rw [if_pos hemp] at hit
      simp at hit
    · rw [if_neg hemp] at hit
      have hval : ∀ p ∈ validProducts r.products,
          p.cost < p.price ∧ 0 < p.price ∧ 0 < p.cost ∧ p ∈ r.products := by
        intro p hp
        unfold validProducts at hp
        rw [List.mem_filter] at hp
        have h2 := of_decide_eq_true hp.2
        exact ⟨h2.1, h2.2.1, h2.2.2, hp.1⟩
      cases hg : r.goal with
      | profit =>
        rw [hg] at hit
        simp only [profitMaximization] at hit
        obtain ⟨p, hp, hid, _, hcost⟩ :=
          pipelineItems_product (profitCandidates_spec (validProducts r.products)
            r.restock_days r.is_payday r.upcoming_holiday) it hit
        obtain ⟨hv1, hv2, hv3, hv4⟩ := hval p hp
        exact ⟨p, hv4, hv1, hv2, hv3, hid, hcost⟩
      | volume =>
        rw [hg] at hit
        simp only [volumeMaximization] at hit
        obtain ⟨p, hp, hid, _, hcost⟩ :=
          pipelineItems_product (volumeCandidates_spec (validProducts r.products)
            r.restock_days r.is_payday r.upcoming_holiday) it hit
        obtain ⟨hv1, hv2, hv3, hv4⟩ := hval p hp
        exact ⟨p, hv4, hv1, hv2, hv3, hid, hcost⟩
      | balanced =>
        rw [hg] at hit
        simp only [balancedStrategy] at hit
        obtain ⟨p, hp, hid, _, hcost⟩ :=
          pipelineItems_product (balancedCandidates_spec (validProducts r.products)
            r.restock_days r.is_payday r.upcoming_holiday) it hit
        obtain ⟨hv1, hv2, hv3, hv4⟩ := hval p hp
        exact ⟨p, hv4, hv1, hv2, hv3, hid, hcost⟩
  · intro hne hlt
    simp only [computeRestockStrategy]
    rw [if_neg (by simpa [List.isEmpty_iff] using hne)]
    simp only []
    rw [if_pos hlt]
    exact List.mem_append_right _ (List.mem_singleton.mpr rfl)

/-- Witness for the amended C8 at a concrete request. -/
theorem excluded_count_warning_amended_witness :
    Warning.excludedCount
        (wMixedRequest.products.length - (validProducts wMixedRequest.products).length) ∈
      (computeRestockStrategy wMixedRequest).warnings :=
  (excluded_count_warning_amended wMixedRequest).2
    (of_decide_eq_true (by with_unfolding_all rfl))
    (of_decide_eq_true (by with_unfolding_all rfl))
